import Mathlib

/-!
Verification of the free-space segment allocator and volume manager in
`src/dmtest/tvm.py`.

The Python module is embedded shallowly: each method becomes a Lean
function; `self` mutation becomes explicit state passing; a Python
exception becomes an `Except.error` carrying the exception kind and
message, and every operation that can both raise and mutate returns the
post-state alongside the `Except` value (Python exceptions propagate with
whatever partial mutation already happened — the embedding mirrors the
exact mutation order of the source, including list aliasing effects).
-/

instance {ε α : Type} [DecidableEq ε] [DecidableEq α] : DecidableEq (Except ε α) := fun x y =>
  match x, y with
  | .ok a, .ok b =>
    if h : a = b then .isTrue (by rw [h]) else .isFalse (by intro hc; cases hc; exact h rfl)
  | .ok _, .error _ => .isFalse (by intro hc; cases hc)
  | .error _, .ok _ => .isFalse (by intro hc; cases hc)
  | .error e, .error f =>
    if h : e = f then .isTrue (by rw [h]) else .isFalse (by intro hc; cases hc; exact h rfl)

namespace Tvm

/-- Python's `<` on strings: lexicographic comparison of the character
sequences by code point (stated on `String.data` so that it evaluates by
kernel reduction). -/
def strLt (a b : String) : Prop := a.data < b.data

instance : DecidableRel strLt := fun a b =>
  inferInstanceAs (Decidable (a.data < b.data))

/-- `Segment` namedtuple from tvm.py: (dev, offset, length). -/
structure Segment where
  dev : String
  offset : Nat
  length : Nat
deriving DecidableEq, Repr

/-- The Python exception kinds that tvm.py code can raise:
`SegmentAllocationError` and `VolumeError` are declared in tvm.py;
`KeyError`, `NameError`, `IndexError` and `NotImplementedError` are
Python builtins that its code paths can also raise. -/
inductive PyErr where
  | segmentAllocationError (msg : String)
  | volumeError (msg : String)
  | keyError (key : String)
  | nameError (name : String)
  | indexError (msg : String)
  | notImplementedError (msg : String)
deriving DecidableEq, Repr

/-- `_allocate_segment(size, segs)` (tvm.py lines 20-37): raises
`SegmentAllocationError` on an empty list; otherwise pops the first
segment, splitting off a prefix of exactly `size` when the segment is
longer than `size` (the residual tail is pushed back at the front). -/
def _allocate_segment (size : Nat) (segs : List Segment) :
    Except PyErr (Segment × List Segment) :=
  match segs with
  | [] => .error (.segmentAllocationError "Out of space in the segment allocator")
  | s :: rest =>
    if s.length > size then
      .ok (⟨s.dev, s.offset, size⟩, ⟨s.dev, s.offset + size, s.length - size⟩ :: rest)
    else
      .ok (s, rest)

/-- The `while size > 0` loop of `Allocator.allocate_segments`
(tvm.py lines 75-78), with the body of `_allocate_segment` inlined.
In the split branch the popped piece has exactly the remaining size, so
the loop terminates right afterwards with the residual tail at the front
of the remaining list; this makes the recursion structural on the list.
Returns the accumulated result pieces together with the remaining list. -/
def allocate_loop : List Segment → Nat → Except PyErr (List Segment × List Segment)
  | segs, 0 => .ok ([], segs)
  | [], _ + 1 => .error (.segmentAllocationError "Out of space in the segment allocator")
  | s :: rest, size + 1 =>
    if s.length > size + 1 then
      .ok ([⟨s.dev, s.offset, size + 1⟩],
           ⟨s.dev, s.offset + (size + 1), s.length - (size + 1)⟩ :: rest)
    else
      match allocate_loop rest (size + 1 - s.length) with
      | .error e => .error e
      | .ok pr => .ok (s :: pr.1, pr.2)

/-- The `Allocator` class: holds the free pool `_free_segments`. -/
structure Allocator where
  free_segments : List Segment
deriving DecidableEq, Repr

/-- `Allocator.allocate_segments(size, segment_predicate)` (tvm.py lines
64-81).  With a predicate, the loop runs over a fresh filtered list and on
success that remainder *replaces* the whole pool (non-matching entries are
dropped); on failure `self._free_segments` is never reassigned, so the
pool is unchanged.  Without a predicate the loop mutates the pool list
itself in place, so on failure (which can only occur once every entry has
been popped) the pool is left empty. -/
def Allocator.allocate_segments (a : Allocator) (size : Nat)
    (segment_predicate : Option (Segment → Bool)) :
    Except PyErr (List Segment) × Allocator :=
  match segment_predicate with
  | some p =>
    match allocate_loop (a.free_segments.filter p) size with
    | .ok pr => (.ok pr.1, ⟨pr.2⟩)
    | .error e => (.error e, a)
  | none =>
    match allocate_loop a.free_segments size with
    | .ok pr => (.ok pr.1, ⟨pr.2⟩)
    | .error e => (.error e, ⟨[]⟩)

/-- The sort key used by `_merge` (tvm.py line 41): Python's
`segs.sort(key=lambda seg: (seg.dev, seg.offset))` orders by the pair
(device string, offset) lexicographically. -/
def segKeyLE (a b : Segment) : Prop :=
  strLt a.dev b.dev ∨ (a.dev = b.dev ∧ a.offset ≤ b.offset)

instance : DecidableRel segKeyLE := fun a b =>
  inferInstanceAs (Decidable (strLt a.dev b.dev ∨ (a.dev = b.dev ∧ a.offset ≤ b.offset)))

theorem strLt_trichotomy (a b : String) : strLt a b ∨ a = b ∨ strLt b a := by
  rcases lt_trichotomy a.data b.data with h | h | h
  · exact Or.inl h
  · exact Or.inr (Or.inl (by cases a; cases b; exact congrArg String.mk h))
  · exact Or.inr (Or.inr h)

theorem strLt_trans {a b c : String} (h1 : strLt a b) (h2 : strLt b c) : strLt a c :=
  lt_trans h1 h2

instance : IsTotal Segment segKeyLE where
  total a b := by
    rcases strLt_trichotomy a.dev b.dev with h | h | h
    · exact Or.inl (Or.inl h)
    · rcases Nat.le_total a.offset b.offset with h' | h'
      · exact Or.inl (Or.inr ⟨h, h'⟩)
      · exact Or.inr (Or.inr ⟨h.symm, h'⟩)
    · exact Or.inr (Or.inl h)

instance : IsTrans Segment segKeyLE where
  trans a b c hab hbc := by
    rcases hab with h1 | ⟨h1, h1'⟩
    · rcases hbc with h2 | ⟨h2, _⟩
      · exact Or.inl (strLt_trans h1 h2)
      · exact Or.inl (h2 ▸ h1)
    · rcases hbc with h2 | ⟨h2, h2'⟩
      · exact Or.inl (h1 ▸ h2)
      · exact Or.inr ⟨h1.trans h2, le_trans h1' h2'⟩

/-- The condition under which `_merge`'s loop merges the next entry `n`
into the accumulator `s` (tvm.py line 47). -/
def mergeAdj (s n : Segment) : Prop :=
  n.dev = s.dev ∧ n.offset = s.offset + s.length

instance : DecidableRel mergeAdj := fun s n =>
  inferInstanceAs (Decidable (n.dev = s.dev ∧ n.offset = s.offset + s.length))

/-- The merging loop of `_merge` (tvm.py lines 44-55): `s` is the current
accumulator, the list holds the remaining sorted entries. -/
def merge_loop : Segment → List Segment → List Segment
  | s, [] => [s]
  | s, n :: rest =>
    if mergeAdj s n then
      merge_loop ⟨s.dev, s.offset, s.length + n.length⟩ rest
    else
      s :: merge_loop n rest

/-- `_merge(segs)` (tvm.py lines 40-57): sorts by (dev, offset), then
pops the first element — raising `IndexError` when the list is empty —
and runs the merging loop over the rest. -/
def _merge (segs : List Segment) : Except PyErr (List Segment) :=
  match List.insertionSort segKeyLE segs with
  | [] => .error (.indexError "pop from empty list")
  | s :: rest => .ok (merge_loop s rest)

/-- `Allocator.release_segments(segs)` (tvm.py lines 83-85): extends the
pool with `segs` in place, then reassigns it to `_merge` of the whole
list.  When `_merge` raises (pool and `segs` both empty) the in-place
extension has already happened, so the (empty) extended pool remains. -/
def Allocator.release_segments (a : Allocator) (segs : List Segment) :
    Except PyErr Unit × Allocator :=
  match _merge (a.free_segments ++ segs) with
  | .ok merged => (.ok (), ⟨merged⟩)
  | .error e => (.error e, ⟨a.free_segments ++ segs⟩)

/-- `Allocator.free_space()` (tvm.py lines 87-88). -/
def Allocator.free_space (a : Allocator) : Nat :=
  (a.free_segments.map Segment.length).sum

/-- Modelled from the spec: the mapping-target descriptor of §6, an
opaque value constructed as `(length, backing_device_id, backing_offset)`
— `dmtest.device_mapper.targets.LinearTarget` is outside `src/`, and
tvm.py only constructs and orders these values. -/
structure LinearTarget where
  length : Nat
  dev : String
  offset : Nat
deriving DecidableEq, Repr

/-- The state of a `Volume` / `LinearVolume` (tvm.py lines 91-97):
name, requested length, owned segments, derived targets, allocated flag.
`LinearVolume` adds no state of its own. -/
structure Volume where
  name : String
  length : Nat
  segments : List Segment
  targets : List LinearTarget
  allocated : Bool
deriving DecidableEq, Repr

/-- `LinearVolume(name, length)` constructor (tvm.py lines 92-97, 123-124). -/
def LinearVolume.new (name : String) (length : Nat) : Volume :=
  ⟨name, length, [], [], false⟩

/-- `Volume.size()` (tvm.py lines 99-100). -/
def Volume.size (vol : Volume) : Nat :=
  (vol.segments.map Segment.length).sum

/-- `_segs_to_targets(segs)` (tvm.py lines 118-119). -/
def _segs_to_targets (segs : List Segment) : List LinearTarget :=
  segs.map fun s => ⟨s.length, s.dev, s.offset⟩

/-- `LinearVolume.resize(allocator, new_length, segment_predicate)`
(tvm.py lines 126-142).  Returns the result, the (possibly updated)
volume, and the (possibly updated) allocator. -/
def LinearVolume.resize (vol : Volume) (allocator : Allocator)
    (new_length : Nat) (segment_predicate : Option (Segment → Bool)) :
    Except PyErr Unit × Volume × Allocator :=
  if vol.allocated = false then
    (.ok (), { vol with length := new_length }, allocator)
  else if new_length < vol.length then
    (.error (.notImplementedError "reduce not implemented"), vol, allocator)
  else
    match allocator.allocate_segments (new_length - vol.length) segment_predicate with
    | (.ok new_segs, a') =>
      (.ok (), { vol with
                   segments := vol.segments ++ new_segs,
                   targets := vol.targets ++ _segs_to_targets new_segs,
                   length := new_length }, a')
    | (.error e, a') => (.error e, vol, a')

/-- `LinearVolume.allocate(allocator, segment_predicate)` (tvm.py lines
144-151). -/
def LinearVolume.allocate (vol : Volume) (allocator : Allocator)
    (segment_predicate : Option (Segment → Bool)) :
    Except PyErr Unit × Volume × Allocator :=
  match allocator.allocate_segments vol.length segment_predicate with
  | (.ok segs, a') =>
    (.ok (), { vol with
                 segments := segs,
                 targets := _segs_to_targets segs,
                 allocated := true }, a')
  | (.error e, a') => (.error e, vol, a')

/-- The `VM` registry `_volumes` is a CPython dict: insertion-ordered,
modelled as an association list.  `d[k] = v` updates in place when the
key exists, otherwise appends. -/
def dictSet : List (String × Volume) → String → Volume → List (String × Volume)
  | [], k, v => [(k, v)]
  | (k', v') :: rest, k, v =>
    if k' = k then (k, v) :: rest else (k', v') :: dictSet rest k v

/-- `k in d` for the registry dict. -/
def dictContains (d : List (String × Volume)) (k : String) : Bool :=
  d.any fun kv => kv.1 == k

/-- `d[k]` for the registry dict (None when absent, modelling KeyError
at the call sites that do a bare lookup). -/
def dictGet (d : List (String × Volume)) (k : String) : Option Volume :=
  (d.find? fun kv => kv.1 == k).map fun kv => kv.2

/-- `del d[k]` for the registry dict. -/
def dictDel (d : List (String × Volume)) (k : String) : List (String × Volume) :=
  d.filter fun kv => !(kv.1 == k)

/-- The `VM` class state (tvm.py lines 157-160): one allocator and the
name-keyed volume registry.  Only `LinearVolume`s exist (tvm.py models no
other concrete volume kind), so registry values are `Volume` states and
dynamic dispatch of `allocate`/`resize` goes to the `LinearVolume`
methods. -/
structure VM where
  allocator : Allocator
  volumes : List (String × Volume)
deriving DecidableEq, Repr

/-- `VM.add_allocation_volume(dev, offset, length)` (tvm.py lines
162-168) for an explicitly supplied nonzero length.  (When the length
argument is falsy the source consults the external collaborator
`utils.dev_size`, which is outside this core, §6; no claim exercises that
branch.) -/
def VM.add_allocation_volume (vm : VM) (dev : String) (offset : Nat)
    (length : Nat) : Except PyErr Unit × VM :=
  match vm.allocator.release_segments [⟨dev, offset, length⟩] with
  | (r, a') => (r, ⟨a', vm.volumes⟩)

/-- `VM.free_space()` (tvm.py lines 170-171). -/
def VM.free_space (vm : VM) : Nat :=
  vm.allocator.free_space

/-- `VM.add_volume(vol, segment_predicate)` (tvm.py lines 173-180):
`_check_not_exist`, then `vol.allocate(...)`, then registry insertion.
An allocation failure propagates before the insertion, with whatever
allocator mutation the failed allocation produced. -/
def VM.add_volume (vm : VM) (vol : Volume)
    (segment_predicate : Option (Segment → Bool)) : Except PyErr Unit × VM :=
  if dictContains vm.volumes vol.name then
    (.error (.volumeError ("Volume '" ++ vol.name ++ "' already exists")), vm)
  else
    match LinearVolume.allocate vol vm.allocator segment_predicate with
    | (.ok _, vol', a') => (.ok (), ⟨a', dictSet vm.volumes vol'.name vol'⟩)
    | (.error e, _, a') => (.error e, ⟨a', vm.volumes⟩)

/-- `VM.remove_volume(name)` (tvm.py lines 182-186). -/
def VM.remove_volume (vm : VM) (name : String) : Except PyErr Unit × VM :=
  if dictContains vm.volumes name then
    match dictGet vm.volumes name with
    | some vol =>
      match vm.allocator.release_segments vol.segments with
      | (.ok _, a') => (.ok (), ⟨a', dictDel vm.volumes name⟩)
      | (.error e, a') => (.error e, ⟨a', vm.volumes⟩)
    | none => (.error (.keyError name), vm)
  else
    (.error (.volumeError ("Volume '" ++ name ++ "' doesn't exist")), vm)

/-- `VM.size(name)` (tvm.py lines 188-189): a bare `self._volumes[name]`
lookup with NO existence check — a missing name raises `KeyError`, not
`VolumeError`. -/
def VM.size (vm : VM) (name : String) : Except PyErr Nat × VM :=
  match dictGet vm.volumes name with
  | none => (.error (.keyError name), vm)
  | some vol => (.ok vol.size, vm)

/-- `VM.resize(name, new_size, segment_predicate)` (tvm.py lines
191-198): after `_check_exists`, line 198 evaluates the *undefined* name
`segment_preicate` (a typo for `segment_predicate`) while building the
argument list, raising `NameError` before `volume.resize` is ever
entered; nothing is mutated. -/
def VM.resize (vm : VM) (name : String) (new_size : Nat)
    (segment_predicate : Option (Segment → Bool)) : Except PyErr Unit × VM :=
  if dictContains vm.volumes name then
    (.error (.nameError "segment_preicate"), vm)
  else
    (.error (.volumeError ("Volume '" ++ name ++ "' doesn't exist")), vm)

/-- `VM.segments(name)` (tvm.py lines 200-202): `_check_exists`, then the
volume's owned segment list. -/
def VM.segments (vm : VM) (name : String) : Except PyErr (List Segment) × VM :=
  if dictContains vm.volumes name then
    match dictGet vm.volumes name with
    | some vol => (.ok vol.segments, vm)
    | none => (.error (.keyError name), vm)
  else
    (.error (.volumeError ("Volume '" ++ name ++ "' doesn't exist")), vm)

/-- `VM.targets(name)` (tvm.py lines 204-206): `_check_exists`, then the
volume's target list. -/
def VM.targets (vm : VM) (name : String) : Except PyErr (List LinearTarget) × VM :=
  if dictContains vm.volumes name then
    match dictGet vm.volumes name with
    | some vol => (.ok vol.targets, vm)
    | none => (.error (.keyError name), vm)
  else
    (.error (.volumeError ("Volume '" ++ name ++ "' doesn't exist")), vm)

/-! ## Derived predicates used by the stated properties -/

/-- Two segments do not overlap: different devices, or disjoint
address ranges. -/
def SegDisjoint (a b : Segment) : Prop :=
  a.dev ≠ b.dev ∨ a.offset + a.length ≤ b.offset ∨ b.offset + b.length ≤ a.offset

instance : DecidableRel SegDisjoint := fun a b =>
  inferInstanceAs (Decidable (a.dev ≠ b.dev ∨ a.offset + a.length ≤ b.offset ∨ b.offset + b.length ≤ a.offset))

theorem SegDisjoint.symm {a b : Segment} (h : SegDisjoint a b) : SegDisjoint b a := by
  rcases h with h | h | h
  · exact Or.inl (Ne.symm h)
  · exact Or.inr (Or.inr h)
  · exact Or.inr (Or.inl h)

/-- `r` is a sub-range of `s`: same device and contained offset interval. -/
def SubRange (r s : Segment) : Prop :=
  r.dev = s.dev ∧ s.offset ≤ r.offset ∧ r.offset + r.length ≤ s.offset + s.length

instance : DecidableRel SubRange := fun a b =>
  inferInstanceAs (Decidable (a.dev = b.dev ∧ b.offset ≤ a.offset ∧ a.offset + a.length ≤ b.offset + b.length))

theorem SegDisjoint.of_subRange_right {a t r : Segment}
    (h : SegDisjoint a t) (hr : SubRange r t) : SegDisjoint a r := by
  obtain ⟨hdev, hlo, hhi⟩ := hr
  rcases h with h | h | h
  · exact Or.inl (hdev ▸ h)
  · exact Or.inr (Or.inl (le_trans h hlo))
  · exact Or.inr (Or.inr (le_trans hhi h))

/-- `a` lies strictly before `b` in address order and they do not even
touch: different device (in sort order) or a gap between them. -/
def StrictBelow (a b : Segment) : Prop :=
  strLt a.dev b.dev ∨ (a.dev = b.dev ∧ a.offset + a.length < b.offset)

/-- `a` lies before `b` in address order, allowing them to touch. -/
def Below (a b : Segment) : Prop :=
  strLt a.dev b.dev ∨ (a.dev = b.dev ∧ a.offset + a.length ≤ b.offset)

theorem StrictBelow.trans {a b c : Segment}
    (h1 : StrictBelow a b) (h2 : StrictBelow b c) : StrictBelow a c := by
  rcases h1 with h1 | ⟨h1, h1'⟩
  · rcases h2 with h2 | ⟨h2, _⟩
    · exact Or.inl (strLt_trans h1 h2)
    · exact Or.inl (h2 ▸ h1)
  · rcases h2 with h2 | ⟨h2, h2'⟩
    · exact Or.inl (h1 ▸ h2)
    · exact Or.inr ⟨h1.trans h2, by omega⟩

/-- Neither of two segments ends exactly where the other begins on the
same device. -/
def TouchFree (a b : Segment) : Prop :=
  ¬(a.dev = b.dev ∧ a.offset + a.length = b.offset) ∧
  ¬(b.dev = a.dev ∧ b.offset + b.length = a.offset)

instance : DecidableRel TouchFree := fun a b =>
  inferInstanceAs (Decidable (¬(a.dev = b.dev ∧ a.offset + a.length = b.offset) ∧
    ¬(b.dev = a.dev ∧ b.offset + b.length = a.offset)))

/-- A pool list with no two same-device entries where one ends exactly
where the other begins: the "no two adjacent-and-mergeable entries"
shape of a fully coalesced pool. -/
def NoTouchingPair (l : List Segment) : Prop :=
  l.Pairwise TouchFree

instance : Decidable (NoTouchingPair l) :=
  inferInstanceAs (Decidable (l.Pairwise TouchFree))

/-- The negation of `_merge`'s merge condition between consecutive
entries: what "fully coalesced" means for an (already sorted) pool. -/
def Coalesced (l : List Segment) : Prop :=
  l.Chain' fun s n => ¬ mergeAdj s n

/-- Executable check for `Coalesced`. -/
def coalescedb : List Segment → Bool
  | s :: n :: rest => decide (¬ mergeAdj s n) && coalescedb (n :: rest)
  | _ => true

theorem coalescedb_iff : ∀ l : List Segment, coalescedb l = true ↔ Coalesced l
  | [] => by simp [coalescedb, Coalesced]
  | [s] => by simp [coalescedb, Coalesced]
  | s :: n :: rest => by
    rw [coalescedb, Bool.and_eq_true, decide_eq_true_iff]
    rw [Coalesced, List.chain'_cons]
    exact and_congr Iff.rfl (coalescedb_iff (n :: rest))

instance : Decidable (Coalesced l) := decidable_of_iff _ (coalescedb_iff l)

/-! ## Behaviour of the allocation loop -/

/-- What a successful run of the allocation loop produces: pieces whose
lengths sum to exactly the requested size, each piece a sub-range of
some input entry, and pairwise disjoint whenever the input entries
were. -/
theorem allocate_loop_ok_spec :
    ∀ (segs : List Segment) (size : Nat) (res rem : List Segment),
      allocate_loop segs size = .ok (res, rem) →
      (res.map Segment.length).sum = size ∧
      (∀ r ∈ res, ∃ s ∈ segs, SubRange r s) ∧
      (segs.Pairwise SegDisjoint → res.Pairwise SegDisjoint) := by
  intro segs
  induction segs with
  | nil =>
    intro size res rem h
    cases size with
    | zero =>
      simp only [allocate_loop, Except.ok.injEq, Prod.mk.injEq] at h
      obtain ⟨h1, h2⟩ := h
      subst h1; subst h2
      simp
    | succ n => simp [allocate_loop] at h
  | cons s rest ih =>
    intro size res rem h
    cases size with
    | zero =>
      simp only [allocate_loop, Except.ok.injEq, Prod.mk.injEq] at h
      obtain ⟨h1, h2⟩ := h
      subst h1; subst h2
      simp
    | succ n =>
      rw [allocate_loop] at h
      by_cases hsplit : s.length > n + 1
      · rw [if_pos hsplit] at h
        simp only [Except.ok.injEq, Prod.mk.injEq] at h
        obtain ⟨h1, h2⟩ := h
        subst h1; subst h2
        refine ⟨by simp, ?_, ?_⟩
        · intro r hr
          simp only [List.mem_singleton] at hr
          subst hr
          exact ⟨s, List.mem_cons_self s rest, rfl, le_refl _, by simp; omega⟩
        · intro _
          simp
      · rw [if_neg hsplit] at h
        cases hrec : allocate_loop rest (n + 1 - s.length) with
        | error e => rw [hrec] at h; simp at h
        | ok pr =>
          rw [hrec] at h
          simp only [Except.ok.injEq, Prod.mk.injEq] at h
          obtain ⟨h1, h2⟩ := h
          subst h1; subst h2
          obtain ⟨ih1, ih2, ih3⟩ := ih (n + 1 - s.length) pr.1 pr.2 hrec
          refine ⟨by simp [ih1]; omega, ?_, ?_⟩
          · intro r hr
            rcases List.mem_cons.mp hr with hr | hr
            · subst hr
              exact ⟨r, List.mem_cons_self r rest, rfl, le_refl _, le_refl _⟩
            · obtain ⟨t, ht, hrt⟩ := ih2 r hr
              exact ⟨t, List.mem_cons_of_mem s ht, hrt⟩
          · intro hp
            rw [List.pairwise_cons] at hp ⊢
            refine ⟨?_, ih3 hp.2⟩
            intro r hr
            obtain ⟨t, ht, hrt⟩ := ih2 r hr
            exact (hp.1 t ht).of_subRange_right hrt

/-- The allocation loop fails exactly when the input entries together do
not cover the requested size. -/
theorem allocate_loop_error_iff :
    ∀ (segs : List Segment) (size : Nat),
      (∃ e, allocate_loop segs size = .error e) ↔
        (segs.map Segment.length).sum < size := by
  intro segs
  induction segs with
  | nil =>
    intro size
    cases size with
    | zero => simp [allocate_loop]
    | succ n => exact ⟨fun _ => by simp, fun _ => ⟨_, rfl⟩⟩
  | cons s rest ih =>
    intro size
    cases size with
    | zero => simp [allocate_loop]
    | succ n =>
      rw [allocate_loop]
      by_cases hsplit : s.length > n + 1
      · rw [if_pos hsplit]
        simp only [List.map_cons, List.sum_cons]
        exact ⟨fun ⟨e, he⟩ => by simp at he, fun hlt => absurd hlt (by omega)⟩
      · rw [if_neg hsplit]
        cases hrec : allocate_loop rest (n + 1 - s.length) with
        | error e =>
          simp only [List.map_cons, List.sum_cons]
          constructor
          · intro _
            have := (ih (n + 1 - s.length)).mp ⟨e, hrec⟩
            omega
          · intro _
            exact ⟨e, rfl⟩
        | ok pr =>
          simp only [List.map_cons, List.sum_cons]
          constructor
          · intro ⟨e, he⟩
            simp at he
          · intro hlt
            have : (rest.map Segment.length).sum < n + 1 - s.length := by omega
            obtain ⟨e, he⟩ := (ih (n + 1 - s.length)).mpr this
            rw [he] at hrec
            cases hrec


/-- The only error the allocation loop can produce is the
`SegmentAllocationError` with the "out of space" message. -/
theorem allocate_loop_error_msg :
    ∀ (segs : List Segment) (size : Nat) (e : PyErr),
      allocate_loop segs size = .error e →
      e = .segmentAllocationError "Out of space in the segment allocator" := by
  intro segs
  induction segs with
  | nil =>
    intro size e h
    cases size with
    | zero => simp [allocate_loop] at h
    | succ n =>
      simp only [allocate_loop, Except.error.injEq] at h
      exact h.symm
  | cons s rest ih =>
    intro size e h
    cases size with
    | zero => simp [allocate_loop] at h
    | succ n =>
      rw [allocate_loop] at h
      by_cases hsplit : s.length > n + 1
      · rw [if_pos hsplit] at h; simp at h
      · rw [if_neg hsplit] at h
        cases hrec : allocate_loop rest (n + 1 - s.length) with
        | error e' =>
          rw [hrec] at h
          simp only [Except.error.injEq] at h
          exact h ▸ ih _ e' hrec
        | ok pr => rw [hrec] at h; simp at h

/-! ## C1, C2, C4: direct evaluations of the code at failing inputs -/

/-- C1: the claim says free-pool entries not matching the predicate
survive a successful `allocate_segments` call.  The code does the
opposite: line 70 builds a filtered list and line 80 assigns that
filtered remainder back to `self._free_segments`, so the non-matching
entry `("d1", 0, 10)` is dropped from the pool even though the
allocation it was excluded from succeeded. -/
theorem C1_nonmatching_entries_dropped :
    (Allocator.allocate_segments ⟨[⟨"d0", 0, 10⟩, ⟨"d1", 0, 10⟩]⟩ 5
        (some fun s => s.dev == "d0")).1 = .ok [⟨"d0", 0, 5⟩] ∧
    (Allocator.allocate_segments ⟨[⟨"d0", 0, 10⟩, ⟨"d1", 0, 10⟩]⟩ 5
        (some fun s => s.dev == "d0")).2.free_segments = [⟨"d0", 5, 5⟩] ∧
    ⟨"d1", 0, 10⟩ ∉ (Allocator.allocate_segments ⟨[⟨"d0", 0, 10⟩, ⟨"d1", 0, 10⟩]⟩ 5
        (some fun s => s.dev == "d0")).2.free_segments := by
  decide

/-- C2: the claim says `VM.resize` delegates to the volume's resize and,
from the scenario state (backing extent ("d0",0,100), allocated volume
"v" of size 30), `resize("v", 50)` succeeds with the stated sizes and
targets.  In the code every `VM.resize` call on an existing volume
raises `NameError`: line 198 spells the predicate argument
`segment_preicate`, a name that is not defined.  The scenario state is
reproduced exactly and the call fails without touching it. -/
theorem C2_resize_raises_nameError :
    ((VM.add_allocation_volume ⟨⟨[]⟩, []⟩ "d0" 0 100).2.add_volume
        (LinearVolume.new "v" 30) none).2 =
      ⟨⟨[⟨"d0", 30, 70⟩]⟩, [("v", ⟨"v", 30, [⟨"d0", 0, 30⟩], [⟨30, "d0", 0⟩], true⟩)]⟩ ∧
    (VM.resize ⟨⟨[⟨"d0", 30, 70⟩]⟩,
        [("v", ⟨"v", 30, [⟨"d0", 0, 30⟩], [⟨30, "d0", 0⟩], true⟩)]⟩ "v" 50 none).1 =
      .error (.nameError "segment_preicate") ∧
    (VM.resize ⟨⟨[⟨"d0", 30, 70⟩]⟩,
        [("v", ⟨"v", 30, [⟨"d0", 0, 30⟩], [⟨30, "d0", 0⟩], true⟩)]⟩ "v" 50 none).2 =
      ⟨⟨[⟨"d0", 30, 70⟩]⟩, [("v", ⟨"v", 30, [⟨"d0", 0, 30⟩], [⟨30, "d0", 0⟩], true⟩)]⟩ := by
  decide

/-- C4: the claim says `size`, `segments` and `targets` all fail with a
`VolumeError` on an unknown name.  `segments` and `targets` do
(`_check_exists`), but `VM.size` (lines 188-189) performs a bare
dictionary lookup with no existence check, so it raises `KeyError`
instead; no state is changed by any of the three calls. -/
theorem C4_size_raises_keyError :
    (VM.size ⟨⟨[]⟩, []⟩ "v").1 = .error (.keyError "v") ∧
    (VM.size ⟨⟨[]⟩, []⟩ "v").1 ≠ .error (.volumeError "Volume 'v' doesn't exist") ∧
    (VM.segments ⟨⟨[]⟩, []⟩ "v").1 = .error (.volumeError "Volume 'v' doesn't exist") ∧
    (VM.targets ⟨⟨[]⟩, []⟩ "v").1 = .error (.volumeError "Volume 'v' doesn't exist") ∧
    (VM.size ⟨⟨[]⟩, []⟩ "v").2 = ⟨⟨[]⟩, []⟩ ∧
    (VM.segments ⟨⟨[]⟩, []⟩ "v").2 = ⟨⟨[]⟩, []⟩ ∧
    (VM.targets ⟨⟨[]⟩, []⟩ "v").2 = ⟨⟨[]⟩, []⟩ := by
  decide

/-! ## C5, C6: allocation success and failure -/

/-- C5: a successful `allocate_segments(S, predicate)` call on a pool of
pairwise non-overlapping entries returns extents that are pairwise
non-overlapping, sum to exactly `S`, and are each a sub-range of an
entry that was in the free pool before the call. -/
theorem C5_allocate_partition (a : Allocator) (S : Nat)
    (p : Option (Segment → Bool))
    (hdisj : a.free_segments.Pairwise SegDisjoint) (hS : 0 < S)
    (res : List Segment)
    (hok : (a.allocate_segments S p).1 = .ok res) :
    res.Pairwise SegDisjoint ∧
    (res.map Segment.length).sum = S ∧
    ∀ r ∈ res, ∃ s ∈ a.free_segments, SubRange r s := by
  cases p with
  | none =>
    cases hloop : allocate_loop a.free_segments S with
    | error e => simp [Allocator.allocate_segments, hloop] at hok
    | ok pr =>
      have hres : pr.1 = res := by
        simpa [Allocator.allocate_segments, hloop] using hok
      obtain ⟨h1, h2, h3⟩ := allocate_loop_ok_spec a.free_segments S pr.1 pr.2 hloop
      subst hres
      exact ⟨h3 hdisj, h1, h2⟩
  | some q =>
    cases hloop : allocate_loop (a.free_segments.filter q) S with
    | error e => simp [Allocator.allocate_segments, hloop] at hok
    | ok pr =>
      have hres : pr.1 = res := by
        simpa [Allocator.allocate_segments, hloop] using hok
      obtain ⟨h1, h2, h3⟩ :=
        allocate_loop_ok_spec (a.free_segments.filter q) S pr.1 pr.2 hloop
      subst hres
      refine ⟨h3 (hdisj.sublist (List.filter_sublist _)), h1, ?_⟩
      intro r hr
      obtain ⟨t, ht, hrt⟩ := h2 r hr
      exact ⟨t, List.mem_of_mem_filter ht, hrt⟩

/-- Witness for C5 at a concrete input: pool [("d0",0,10)], request 4
without a predicate returns the single extent ("d0",0,4). -/
theorem C5_allocate_partition_witness :
    ([⟨"d0", 0, 4⟩] : List Segment).Pairwise SegDisjoint ∧
    (([⟨"d0", 0, 4⟩] : List Segment).map Segment.length).sum = 4 ∧
    ∀ r ∈ ([⟨"d0", 0, 4⟩] : List Segment),
      ∃ s ∈ (Allocator.mk [⟨"d0", 0, 10⟩]).free_segments, SubRange r s :=
  C5_allocate_partition ⟨[⟨"d0", 0, 10⟩]⟩ 4 none (by decide) (by decide)
    [⟨"d0", 0, 4⟩] (by decide)

/-- C6 counterexample: the claim says entries already popped before an
allocation failure are not restored to the free pool.  With a predicate
the popping happens on a temporary filtered list and the failed call
leaves the pool exactly as it was: the popped entry ("d0",0,5) is still
in the pool after the failure. -/
theorem C6_counterexample_pool_intact :
    (Allocator.allocate_segments ⟨[⟨"d0", 0, 5⟩]⟩ 10
        (some fun s => s.dev == "d0")).1 =
      .error (.segmentAllocationError "Out of space in the segment allocator") ∧
    (Allocator.allocate_segments ⟨[⟨"d0", 0, 5⟩]⟩ 10
        (some fun s => s.dev == "d0")).2.free_segments = [⟨"d0", 0, 5⟩] := by
  decide

/-- C6 (amended): `allocate_segments(S, predicate)` fails iff the
eligible (predicate-matching) pool entries together cover less than `S`;
the only failure is `SegmentAllocationError` with the "out of space"
message; and after a failure the pool is empty (fully drained in place)
when no predicate was given, but *unchanged* when a predicate was given,
because only the temporary filtered list was consumed. -/
theorem C6_failure_mode (a : Allocator) (S : Nat)
    (p : Option (Segment → Bool)) (hS : 0 < S) :
    ((∃ e, (a.allocate_segments S p).1 = .error e) ↔
      (((match p with
         | none => a.free_segments
         | some q => a.free_segments.filter q).map Segment.length).sum < S)) ∧
    (∀ e, (a.allocate_segments S p).1 = .error e →
      e = .segmentAllocationError "Out of space in the segment allocator") ∧
    ((∃ e, (a.allocate_segments S p).1 = .error e) →
      (a.allocate_segments S p).2.free_segments =
        (match p with
         | none => ([] : List Segment)
         | some _ => a.free_segments)) := by
  cases p with
  | none =>
    cases hloop : allocate_loop a.free_segments S with
    | error e =>
      refine ⟨?_, ?_, ?_⟩
      · simp only [Allocator.allocate_segments, hloop]
        exact Iff.intro (fun _ => (allocate_loop_error_iff _ _).mp ⟨e, hloop⟩)
          (fun _ => ⟨e, rfl⟩)
      · intro e' he'
        simp only [Allocator.allocate_segments, hloop, Except.error.injEq] at he'
        exact he' ▸ allocate_loop_error_msg _ _ e hloop
      · intro _
        simp [Allocator.allocate_segments, hloop]
    | ok pr =>
      refine ⟨?_, ?_, ?_⟩
      · simp only [Allocator.allocate_segments, hloop]
        constructor
        · intro ⟨e, he⟩; simp at he
        · intro hlt
          obtain ⟨e, he⟩ := (allocate_loop_error_iff _ _).mpr hlt
          rw [he] at hloop; cases hloop
      · intro e' he'
        simp [Allocator.allocate_segments, hloop] at he'
      · intro ⟨e, he⟩
        simp [Allocator.allocate_segments, hloop] at he
  | some q =>
    cases hloop : allocate_loop (a.free_segments.filter q) S with
    | error e =>
      refine ⟨?_, ?_, ?_⟩
      · simp only [Allocator.allocate_segments, hloop]
        exact Iff.intro (fun _ => (allocate_loop_error_iff _ _).mp ⟨e, hloop⟩)
          (fun _ => ⟨e, rfl⟩)
      · intro e' he'
        simp only [Allocator.allocate_segments, hloop, Except.error.injEq] at he'
        exact he' ▸ allocate_loop_error_msg _ _ e hloop
      · intro _
        simp [Allocator.allocate_segments, hloop]
    | ok pr =>
      refine ⟨?_, ?_, ?_⟩
      · simp only [Allocator.allocate_segments, hloop]
        constructor
        · intro ⟨e, he⟩; simp at he
        · intro hlt
          obtain ⟨e, he⟩ := (allocate_loop_error_iff _ _).mpr hlt
          rw [he] at hloop; cases hloop
      · intro e' he'
        simp [Allocator.allocate_segments, hloop] at he'
      · intro ⟨e, he⟩
        simp [Allocator.allocate_segments, hloop] at he

/-- Witness for C6 at a concrete input: pool [("d0",0,3)], request 5
with no predicate fails with the out-of-space error and leaves the pool
drained empty. -/
theorem C6_failure_mode_witness :
    (Allocator.allocate_segments ⟨[⟨"d0", 0, 3⟩]⟩ 5 none).1 =
      .error (.segmentAllocationError "Out of space in the segment allocator") ∧
    (Allocator.allocate_segments ⟨[⟨"d0", 0, 3⟩]⟩ 5 none).2.free_segments = [] := by
  have h := C6_failure_mode ⟨[⟨"d0", 0, 3⟩]⟩ 5 none (by decide)
  obtain ⟨e, hee⟩ := h.1.mpr (by decide)
  have hmsg := h.2.1 e hee
  subst hmsg
  exact ⟨hee, h.2.2 ⟨_, hee⟩⟩

/-! ## Behaviour of the merge loop -/

/-- Merging preserves the total length. -/
theorem merge_loop_sum :
    ∀ (rest : List Segment) (s : Segment),
      ((merge_loop s rest).map Segment.length).sum =
        s.length + (rest.map Segment.length).sum := by
  intro rest
  induction rest with
  | nil => intro s; simp [merge_loop]
  | cons n rest' ih =>
    intro s
    rw [merge_loop]
    by_cases h : mergeAdj s n
    · rw [if_pos h, ih]
      simp only [List.map_cons, List.sum_cons]
      show s.length + n.length + _ = _
      omega
    · rw [if_neg h]
      simp only [List.map_cons, List.sum_cons, ih n]

/-- On a list whose consecutive entries are never mergeable, the merge
loop is the identity. -/
theorem merge_loop_of_coalesced :
    ∀ (rest : List Segment) (s : Segment),
      Coalesced (s :: rest) → merge_loop s rest = s :: rest := by
  intro rest
  induction rest with
  | nil => intro s _; rfl
  | cons n rest' ih =>
    intro s h
    rw [Coalesced, List.chain'_cons] at h
    rw [merge_loop, if_neg h.1, ih n h.2]

/-- Structure of the merge loop's output on a sorted run of entries that
only ever touch (never overlap out of order): the output starts at the
accumulator's device and offset, and its entries are pairwise strictly
separated. -/
theorem merge_loop_pairwise :
    ∀ (rest : List Segment) (s : Segment),
      (s :: rest).Pairwise Below →
      ∃ o out', merge_loop s rest = o :: out' ∧
        o.dev = s.dev ∧ o.offset = s.offset ∧
        (o :: out').Pairwise StrictBelow := by
  intro rest
  induction rest with
  | nil =>
    intro s _
    exact ⟨s, [], rfl, rfl, rfl, by simp⟩
  | cons n rest' ih =>
    intro s h
    rw [List.pairwise_cons] at h
    obtain ⟨hs, hrest⟩ := h
    rw [merge_loop]
    by_cases hadj : mergeAdj s n
    · rw [if_pos hadj]
      obtain ⟨hd, ho⟩ := hadj
      have hpair : ((⟨s.dev, s.offset, s.length + n.length⟩ : Segment) :: rest').Pairwise Below := by
        rw [List.pairwise_cons]
        rw [List.pairwise_cons] at hrest
        refine ⟨?_, hrest.2⟩
        intro y hy
        rcases hrest.1 y hy with h' | ⟨h', h''⟩
        · exact Or.inl (by simpa [hd] using h')
        · exact Or.inr ⟨by simpa using hd ▸ h', by simp; omega⟩
      obtain ⟨o, out', heq, hdev, hoff, hpw⟩ := ih _ hpair
      exact ⟨o, out', heq, hdev, hoff, hpw⟩
    · rw [if_neg hadj]
      obtain ⟨o, out', heq, hdev, hoff, hpw⟩ := ih n hrest
      rw [heq]
      have hsn : Below s n := hs n (List.mem_cons_self n rest')
      have hsb : StrictBelow s o := by
        rcases hsn with h' | ⟨h', h''⟩
        · exact Or.inl (hdev ▸ h')
        · refine Or.inr ⟨hdev ▸ h', hoff ▸ ?_⟩
          rcases Nat.lt_or_ge (s.offset + s.length) n.offset with hlt | hge
          · exact hlt
          · exfalso
            exact hadj ⟨h'.symm, by omega⟩
      refine ⟨s, o :: out', rfl, rfl, rfl, ?_⟩
      rw [List.pairwise_cons]
      refine ⟨?_, hpw⟩
      intro y hy
      rcases List.mem_cons.mp hy with hy | hy
      · exact hy ▸ hsb
      · exact hsb.trans ((List.pairwise_cons.mp hpw).1 y hy)

/-- Pairwise conjunction of two pairwise facts (little helper). -/
theorem pairwise_and {α : Type} {R S : α → α → Prop} :
    ∀ {l : List α}, l.Pairwise R → l.Pairwise S →
      l.Pairwise fun a b => R a b ∧ S a b := by
  intro l
  induction l with
  | nil => intro _ _; exact List.Pairwise.nil
  | cons x xs ih =>
    intro h1 h2
    rw [List.pairwise_cons] at h1 h2 ⊢
    exact ⟨fun y hy => ⟨h1.1 y hy, h2.1 y hy⟩, ih h1.2 h2.2⟩

theorem strLt_irrefl (a : String) : ¬ strLt a a :=
  lt_irrefl a.data

/-! ## C3, C7: release, conservation and coalescing -/

/-- C3 counterexample: the claim says `release_segments(X)` succeeds for
*every* allocator state and list `X`, "including the empty pool" with
`X = []`.  In that very case `_merge` pops from an empty list and the
call raises `IndexError` instead of succeeding. -/
theorem C3_counterexample_empty_release_crashes :
    (Allocator.release_segments ⟨[]⟩ []).1 =
      .error (.indexError "pop from empty list") := by
  decide

/-- C3 (amended): whenever the pool together with the released list `X`
is nonempty, `release_segments(X)` succeeds and conserves space:
`free_space` afterwards is `free_space` before plus the total length of
`X`.  Moreover `release_segments([])` on a nonempty pool that is sorted
and fully coalesced (the shape every pool mutated only through this API
has) leaves the pool list exactly unchanged. -/
theorem C3_release_conservation (a : Allocator) (X : List Segment)
    (hne : a.free_segments ++ X ≠ []) :
    (a.release_segments X).1 = .ok () ∧
    (a.release_segments X).2.free_space =
      a.free_space + (X.map Segment.length).sum ∧
    (X = [] → a.free_segments.Sorted segKeyLE → Coalesced a.free_segments →
      (a.release_segments X).2.free_segments = a.free_segments) := by
  cases hsort : List.insertionSort segKeyLE (a.free_segments ++ X) with
  | nil =>
    exfalso
    have hlen := congrArg List.length hsort
    rw [List.length_insertionSort] at hlen
    exact hne (List.eq_nil_of_length_eq_zero (by simpa using hlen))
  | cons s rest =>
    have hmerge : _merge (a.free_segments ++ X) = .ok (merge_loop s rest) := by
      rw [_merge, hsort]
    refine ⟨?_, ?_, ?_⟩
    · rw [Allocator.release_segments, hmerge]
    · rw [Allocator.release_segments, hmerge]
      show ((merge_loop s rest).map Segment.length).sum = _
      rw [merge_loop_sum]
      have hperm : List.Perm ((s :: rest).map Segment.length)
          ((a.free_segments ++ X).map Segment.length) := by
        rw [← hsort]
        exact (List.perm_insertionSort segKeyLE _).map _
      have hsum := hperm.sum_eq
      simp only [List.map_cons, List.sum_cons] at hsum
      rw [hsum, List.map_append, List.sum_append]
      rfl
    · intro hX hsorted hcoal
      subst hX
      rw [List.append_nil] at hsort
      rw [hsorted.insertionSort_eq] at hsort
      rw [Allocator.release_segments, hmerge]
      show merge_loop s rest = _
      rw [merge_loop_of_coalesced rest s (hsort ▸ hcoal), hsort]

/-- Witness for C3 at a concrete input: pool [("d0",0,5)], release of
the empty list succeeds, conserves space and leaves the pool exactly as
it was. -/
theorem C3_release_conservation_witness :
    (Allocator.release_segments ⟨[⟨"d0", 0, 5⟩]⟩ []).1 = .ok () ∧
    (Allocator.release_segments ⟨[⟨"d0", 0, 5⟩]⟩ []).2.free_space =
      (Allocator.mk [⟨"d0", 0, 5⟩]).free_space +
        (([] : List Segment).map Segment.length).sum ∧
    (Allocator.release_segments ⟨[⟨"d0", 0, 5⟩]⟩ []).2.free_segments =
      [⟨"d0", 0, 5⟩] := by
  have h := C3_release_conservation ⟨[⟨"d0", 0, 5⟩]⟩ [] (by decide)
  exact ⟨h.1, h.2.1, h.2.2 rfl (by decide) (by decide)⟩

/-- C7 counterexample: the claim quantifies over *every* allocator state
and release list.  Releasing overlapping extents (which `release` does
not validate) produces a pool that still contains two same-device
entries where the first ends exactly at the second's offset:
("d0",0,10) and ("d0",10,5) survive unmerged because the overlapping
("d0",2,3) sits between them in sort order. -/
theorem C7_counterexample_overlap_leaves_adjacent_pair :
    (Allocator.release_segments ⟨[]⟩
        [⟨"d0", 0, 10⟩, ⟨"d0", 2, 3⟩, ⟨"d0", 10, 5⟩]).1 = .ok () ∧
    (Allocator.release_segments ⟨[]⟩
        [⟨"d0", 0, 10⟩, ⟨"d0", 2, 3⟩, ⟨"d0", 10, 5⟩]).2.free_segments =
      [⟨"d0", 0, 10⟩, ⟨"d0", 2, 3⟩, ⟨"d0", 10, 5⟩] ∧
    ¬ NoTouchingPair (Allocator.release_segments ⟨[]⟩
        [⟨"d0", 0, 10⟩, ⟨"d0", 2, 3⟩, ⟨"d0", 10, 5⟩]).2.free_segments := by
  decide

/-- C7 (amended): when the pool entries and the released extents all
have positive length and are pairwise non-overlapping (the caller
contract) and their union is nonempty, `release_segments` succeeds and
afterwards the free pool is sorted by (device, offset) and contains no
two same-device entries where one ends exactly at the other's offset —
the fully coalesced maximal disjoint representation. -/
theorem C7_release_coalesces (a : Allocator) (X : List Segment)
    (hpos : ∀ s ∈ a.free_segments ++ X, 0 < s.length)
    (hdisj : (a.free_segments ++ X).Pairwise SegDisjoint)
    (hne : a.free_segments ++ X ≠ []) :
    (a.release_segments X).1 = .ok () ∧
    (a.release_segments X).2.free_segments.Sorted segKeyLE ∧
    NoTouchingPair (a.release_segments X).2.free_segments := by
  have hperm : List.Perm (List.insertionSort segKeyLE (a.free_segments ++ X))
      (a.free_segments ++ X) := List.perm_insertionSort segKeyLE _
  have hsortedKey : (List.insertionSort segKeyLE (a.free_segments ++ X)).Pairwise segKeyLE :=
    List.sorted_insertionSort segKeyLE _
  have hdisj' : (List.insertionSort segKeyLE (a.free_segments ++ X)).Pairwise SegDisjoint :=
    (hperm.pairwise_iff fun h => h.symm).mpr hdisj
  have hbelow : (List.insertionSort segKeyLE (a.free_segments ++ X)).Pairwise Below := by
    refine (pairwise_and hsortedKey hdisj').imp_of_mem ?_
    intro x y hx hy ⟨hkey, hd⟩
    rcases hkey with hk | ⟨hk, hk'⟩
    · exact Or.inl hk
    · refine Or.inr ⟨hk, ?_⟩
      rcases hd with hd | hd | hd
      · exact absurd hk hd
      · exact hd
      · have hy' : 0 < y.length := hpos y (hperm.mem_iff.mp hy)
        omega
  cases hsort : List.insertionSort segKeyLE (a.free_segments ++ X) with
  | nil =>
    exfalso
    have hlen := congrArg List.length hsort
    rw [List.length_insertionSort] at hlen
    exact hne (List.eq_nil_of_length_eq_zero (by simpa using hlen))
  | cons s rest =>
    rw [hsort] at hbelow
    obtain ⟨o, out', heq, _, _, hpw⟩ := merge_loop_pairwise rest s hbelow
    have hmerge : _merge (a.free_segments ++ X) = .ok (merge_loop s rest) := by
      rw [_merge, hsort]
    refine ⟨?_, ?_, ?_⟩
    · rw [Allocator.release_segments, hmerge]
    · rw [Allocator.release_segments, hmerge]
      show (merge_loop s rest).Sorted segKeyLE
      rw [heq]
      refine hpw.imp ?_
      intro x y hxy
      rcases hxy with h | ⟨h, h'⟩
      · exact Or.inl h
      · exact Or.inr ⟨h, by omega⟩
    · rw [Allocator.release_segments, hmerge]
      show NoTouchingPair (merge_loop s rest)
      rw [heq]
      refine hpw.imp ?_
      intro x y hxy
      rcases hxy with h | ⟨h, h'⟩
      · exact ⟨fun hc => strLt_irrefl _ (hc.1 ▸ h), fun hc => strLt_irrefl _ (hc.1.symm ▸ h)⟩
      · exact ⟨fun hc => by omega, fun hc => by omega⟩

/-- Witness for C7 at a concrete input: pool [("d0",0,5)], release of
[("d0",7,2)] yields the sorted, touch-free pool. -/
theorem C7_release_coalesces_witness :
    (Allocator.release_segments ⟨[⟨"d0", 0, 5⟩]⟩ [⟨"d0", 7, 2⟩]).1 = .ok () ∧
    (Allocator.release_segments ⟨[⟨"d0", 0, 5⟩]⟩
        [⟨"d0", 7, 2⟩]).2.free_segments.Sorted segKeyLE ∧
    NoTouchingPair (Allocator.release_segments ⟨[⟨"d0", 0, 5⟩]⟩
        [⟨"d0", 7, 2⟩]).2.free_segments :=
  C7_release_coalesces ⟨[⟨"d0", 0, 5⟩]⟩ [⟨"d0", 7, 2⟩]
    (by decide) (by decide) (by decide)

/-! ## C8, C9, C10: volume resize and registration -/

/-- C8: a successful upward resize of an allocated volume leaves every
previously owned extent unchanged and in its original position, likewise
the previously derived targets, and only appends the newly allocated
extents and their projected targets after the existing entries. -/
theorem C8_growth_append_only (vol : Volume) (a : Allocator) (new_length : Nat)
    (p : Option (Segment → Bool))
    (halloc : vol.allocated = true) (hgrow : vol.length < new_length)
    (hok : (LinearVolume.resize vol a new_length p).1 = .ok ()) :
    ∃ new_segs,
      (LinearVolume.resize vol a new_length p).2.1.segments =
        vol.segments ++ new_segs ∧
      (LinearVolume.resize vol a new_length p).2.1.targets =
        vol.targets ++ _segs_to_targets new_segs := by
  rw [LinearVolume.resize] at hok ⊢
  rw [if_neg (by simp [halloc])] at hok ⊢
  rw [if_neg (by omega)] at hok ⊢
  rcases hcall : a.allocate_segments (new_length - vol.length) p with ⟨r, a'⟩
  rw [hcall] at hok
  cases r with
  | ok new_segs => exact ⟨new_segs, rfl, rfl⟩
  | error e => exact Except.noConfusion hok

/-- Witness for C8 at a concrete input: volume "v" owning ("d0",0,3)
grows from 3 to 5 out of pool [("d0",3,7)]. -/
theorem C8_growth_append_only_witness :
    ∃ new_segs,
      (LinearVolume.resize ⟨"v", 3, [⟨"d0", 0, 3⟩], [⟨3, "d0", 0⟩], true⟩
          ⟨[⟨"d0", 3, 7⟩]⟩ 5 none).2.1.segments =
        [⟨"d0", 0, 3⟩] ++ new_segs ∧
      (LinearVolume.resize ⟨"v", 3, [⟨"d0", 0, 3⟩], [⟨3, "d0", 0⟩], true⟩
          ⟨[⟨"d0", 3, 7⟩]⟩ 5 none).2.1.targets =
        [⟨3, "d0", 0⟩] ++ _segs_to_targets new_segs :=
  C8_growth_append_only ⟨"v", 3, [⟨"d0", 0, 3⟩], [⟨3, "d0", 0⟩], true⟩
    ⟨[⟨"d0", 3, 7⟩]⟩ 5 none rfl (by decide) (by decide)

/-- C9: resizing an allocated volume (whose bookkeeping length agrees
with its owned size, as it always does at rest) below its current size
fails fast with the distinct NotImplementedError ("reduce not
implemented") and leaves volume and allocator untouched; resizing a
still-unallocated volume only updates the length bookkeeping value and
performs no allocator operation. -/
theorem C9_shrink_fails_unallocated_bookkeeps (vol : Volume) (a : Allocator)
    (n : Nat) (p : Option (Segment → Bool)) :
    (vol.allocated = true → vol.length = vol.size → n < vol.size →
      LinearVolume.resize vol a n p =
        (.error (.notImplementedError "reduce not implemented"), vol, a)) ∧
    (vol.allocated = false →
      LinearVolume.resize vol a n p = (.ok (), { vol with length := n }, a)) := by
  constructor
  · intro h1 h2 h3
    rw [LinearVolume.resize, if_neg (by simp [h1]), if_pos (by omega)]
  · intro h1
    rw [LinearVolume.resize, if_pos h1]

/-- Witness for C9 at concrete inputs: shrinking allocated "v" (size 3)
to 2 fails and changes nothing; resizing unallocated "u" to 9 only
rewrites its length. -/
theorem C9_shrink_fails_unallocated_bookkeeps_witness :
    LinearVolume.resize ⟨"v", 3, [⟨"d0", 0, 3⟩], [⟨3, "d0", 0⟩], true⟩ ⟨[]⟩ 2 none =
      (.error (.notImplementedError "reduce not implemented"),
       ⟨"v", 3, [⟨"d0", 0, 3⟩], [⟨3, "d0", 0⟩], true⟩, ⟨[]⟩) ∧
    LinearVolume.resize ⟨"u", 7, [], [], false⟩ ⟨[]⟩ 9 none =
      (.ok (), ⟨"u", 9, [], [], false⟩, ⟨[]⟩) := by
  constructor
  · exact (C9_shrink_fails_unallocated_bookkeeps
      ⟨"v", 3, [⟨"d0", 0, 3⟩], [⟨3, "d0", 0⟩], true⟩ ⟨[]⟩ 2 none).1
      rfl (by decide) (by decide)
  · exact (C9_shrink_fails_unallocated_bookkeeps
      ⟨"u", 7, [], [], false⟩ ⟨[]⟩ 9 none).2 rfl

/-- C10: `add_volume` is atomic on failure: a duplicate name raises
VolumeError before any allocation is attempted, leaving the whole VM
(free pool and registry) unchanged; and when the initial allocation
fails with SegmentAllocationError, no registry entry is created. -/
theorem C10_add_volume_atomic (vm : VM) (vol : Volume)
    (p : Option (Segment → Bool)) :
    (dictContains vm.volumes vol.name = true →
      vm.add_volume vol p =
        (.error (.volumeError ("Volume '" ++ vol.name ++ "' already exists")), vm)) ∧
    (∀ m, (vm.add_volume vol p).1 = .error (.segmentAllocationError m) →
      (vm.add_volume vol p).2.volumes = vm.volumes) := by
  constructor
  · intro h
    rw [VM.add_volume, if_pos h]
  · intro m hm
    by_cases h : dictContains vm.volumes vol.name = true
    · rw [VM.add_volume, if_pos h] at hm
      simp at hm
    · rw [VM.add_volume, if_neg h] at hm ⊢
      rcases hcall : LinearVolume.allocate vol vm.allocator p with ⟨r, vol', a'⟩
      rw [hcall] at hm
      cases r with
      | ok u => exact Except.noConfusion hm
      | error e => rfl

/-- Witness for C10 at concrete inputs: adding "v" twice fails with the
duplicate-name VolumeError and changes nothing; adding "w" of length 5
to an empty pool fails its allocation and creates no registry entry. -/
theorem C10_add_volume_atomic_witness :
    VM.add_volume ⟨⟨[]⟩, [("v", LinearVolume.new "v" 0)]⟩
        (LinearVolume.new "v" 3) none =
      (.error (.volumeError "Volume 'v' already exists"),
       ⟨⟨[]⟩, [("v", LinearVolume.new "v" 0)]⟩) ∧
    (VM.add_volume ⟨⟨[]⟩, []⟩ (LinearVolume.new "w" 5) none).2.volumes = [] := by
  constructor
  · exact (C10_add_volume_atomic ⟨⟨[]⟩, [("v", LinearVolume.new "v" 0)]⟩
      (LinearVolume.new "v" 3) none).1 (by decide)
  · exact (C10_add_volume_atomic ⟨⟨[]⟩, []⟩ (LinearVolume.new "w" 5) none).2
      "Out of space in the segment allocator" (by decide)

end Tvm
